import Mathlib

/-!
Shallow embedding of `src/connection.rs` of the threema-gateway library:
blob identifiers and their hexadecimal text form, the HTTP status-code to
error mapper, the local parts of `send_simple`, `send_e2e` and
`blob_upload` (length validation, the POST parameter maps, the multipart
request body, and the parsing of the upload response body).

Machine bytes (`u8`) are modelled as `Nat` values below 256; `Vec<u8>` and
`[u8; 16]` as `List Nat`; `&str` / `String` as Lean `String`; `HashMap` as
a function `String → Option Value` (`insert` overwrites, which is exactly
the extensional behaviour of `HashMap::insert`); fallible operations
return `Except` or `Option`.
-/

/-- Modelled from the spec: the `ApiError` taxonomy of section 3 (the enum
itself lives in `errors.rs`, which is not among the given source files; all
variants below are referenced from `connection.rs`). `Other` carries the
formatted status text. -/
inductive ApiError where
  | BadCredentials
  | NoCredits
  | IdNotFound
  | MessageTooLong
  | BadBlobId
  | BadSenderOrRecipient
  | BadBlob
  | ServerError
  | Other (msg : String)
  deriving DecidableEq

/-- Modelled from the spec: an `EncryptedMessage` (defined in `crypto.rs`,
not among the given source files) is a nonce together with a ciphertext;
`connection.rs` only ever reads the `ciphertext` field. -/
structure EncryptedMessage where
  nonce : List Nat
  ciphertext : List Nat
  deriving DecidableEq

/-- The lowercase hexadecimal digit for a value below 16 (the symbol table
of `data_encoding::HEXLOWER`): `0`-`9` then `a`-`f`. -/
def hexDigitChar (n : Nat) : Char :=
  if n < 10 then Char.ofNat (48 + n) else Char.ofNat (87 + n)

/-- `data_encoding::HEXLOWER` encoding of one byte: high nibble then low
nibble, two lowercase hexadecimal characters. -/
def encodeByte (b : Nat) : List Char :=
  [hexDigitChar (b / 16), hexDigitChar (b % 16)]

/-- `data_encoding::HEXLOWER.encode` on a byte sequence. -/
def hexEncode (bytes : List Nat) : String :=
  String.mk (bytes.flatMap encodeByte)

/-- The value of one hexadecimal character, both cases accepted (the symbol
table of `data_encoding::HEXLOWER_PERMISSIVE`); `none` for any character
outside `[0-9a-fA-F]`. -/
def hexCharValue (c : Char) : Option Nat :=
  if 48 ≤ c.toNat ∧ c.toNat ≤ 57 then some (c.toNat - 48)
  else if 97 ≤ c.toNat ∧ c.toNat ≤ 102 then some (c.toNat - 87)
  else if 65 ≤ c.toNat ∧ c.toNat ≤ 70 then some (c.toNat - 55)
  else none

/-- `data_encoding::HEXLOWER_PERMISSIVE.decode`: fails on input of odd
length and on any character outside `[0-9a-fA-F]`; otherwise turns each
pair of characters into one byte. -/
def hexDecode : List Char → Option (List Nat)
  | [] => some []
  | [_] => none
  | c1 :: c2 :: rest => do
    let hi ← hexCharValue c1
    let lo ← hexCharValue c2
    let tail ← hexDecode rest
    pure ((16 * hi + lo) :: tail)

/-- A blob ID: `pub struct BlobId(pub [u8; 16])` of `connection.rs`.
The derived `PartialEq`/`Eq` compare the 16 raw bytes, which is the
structural equality of this Lean structure. -/
structure BlobId where
  id : List Nat
  deriving DecidableEq

/-- `BlobId::new`: wrap the raw bytes, no validation. -/
def BlobId.new (id : List Nat) : BlobId :=
  BlobId.mk id

/-- The loop `for i in 0..bytes.len() \x7b arr[i] = bytes[i]; \x7d` of
`BlobId::from_str`, copying `bytes` into the array `arr` starting at index
`i`. The result is `none` exactly when a write `arr[i]` would be out of
bounds, which in Rust is a panic. -/
def copyLoop : List Nat → Nat → List Nat → Option (List Nat)
  | arr, _, [] => some arr
  | arr, i, b :: rest =>
    if i < arr.length then copyLoop (arr.set i b) (i + 1) rest else none

/-- `BlobId::from_str` of `connection.rs`: decode the string with
`HEXLOWER_PERMISSIVE` (failure mapped to `ApiError::BadBlobId`), reject a
decoded length other than 16, then copy the bytes into a `[0; 16]` array.
The outer `Option` is `none` exactly when the Rust code would panic. -/
def BlobId.from_str (s : String) : Option (Except ApiError BlobId) :=
  match hexDecode s.data with
  | none => some (.error .BadBlobId)
  | some bytes =>
    if bytes.length ≠ 16 then some (.error .BadBlobId)
    else (copyLoop (List.replicate 16 0) 0 bytes).map fun arr => .ok (BlobId.mk arr)

/-- The `fmt::Display` implementation for `BlobId`:
`HEXLOWER.encode(&self.0)`. -/
def BlobId.display (b : BlobId) : String :=
  hexEncode b.id

deriving instance DecidableEq for Except

example : BlobId.from_str "0123456789abcdef0123456789abcdef" =
    some (.ok (BlobId.new [0x01, 0x23, 0x45, 0x67, 0x89, 0xab, 0xcd, 0xef,
                           0x01, 0x23, 0x45, 0x67, 0x89, 0xab, 0xcd, 0xef])) := by
  decide

example : BlobId.from_str "0123456789abcdef0123456789abcdeF" =
    some (.ok (BlobId.new [0x01, 0x23, 0x45, 0x67, 0x89, 0xab, 0xcd, 0xef,
                           0x01, 0x23, 0x45, 0x67, 0x89, 0xab, 0xcd, 0xeF])) := by
  decide

example : BlobId.from_str "0123456789abcdef0123456789abcde" =
    some (.error .BadBlobId) := by decide

example : BlobId.from_str "0123456789abcdef0123456789abcdef\n" =
    some (.error .BadBlobId) := by decide

example : BlobId.from_str "0123456789abcdef0123456789abcdeg" =
    some (.error .BadBlobId) := by decide

example : BlobId.display (BlobId.new [0, 1, 2, 3, 4, 5, 6, 7, 8, 9, 10, 11, 12, 13, 14, 255]) =
    "000102030405060708090a0b0c0d0eff" := by decide

lemma hexCharValue_hexDigitChar : ∀ n < 16, hexCharValue (hexDigitChar n) = some n := by
  decide

lemma hexDecode_flatMap_encodeByte (l : List Nat) (hb : ∀ b ∈ l, b < 256) :
    hexDecode (l.flatMap encodeByte) = some l := by
  induction l with
  | nil => rfl
  | cons b rest ih =>
    have hb256 : b < 256 := hb b (List.mem_cons_self b rest)
    have h1 : hexCharValue (hexDigitChar (b / 16)) = some (b / 16) :=
      hexCharValue_hexDigitChar _ (by omega)
    have h2 : hexCharValue (hexDigitChar (b % 16)) = some (b % 16) :=
      hexCharValue_hexDigitChar _ (Nat.mod_lt _ (by omega))
    have ih2 := ih (fun x hx => hb x (List.mem_cons_of_mem b hx))
    have hmod : 16 * (b / 16) + b % 16 = b := Nat.div_add_mod b 16
    rw [List.flatMap_cons]
    show hexDecode
        (hexDigitChar (b / 16) :: hexDigitChar (b % 16) :: rest.flatMap encodeByte) =
      some (b :: rest)
    rw [hexDecode, h1, h2, ih2]
    simp [hmod]

lemma take_set_succ : ∀ (arr : List Nat) (i b : Nat), i < arr.length →
    (arr.set i b).take (i + 1) = arr.take i ++ [b] := by
  intro arr
  induction arr with
  | nil => intro i b h; simp at h
  | cons a as ih =>
    intro i b h
    cases i with
    | zero => simp
    | succ j =>
      have hj := ih j b (by simp at h; omega)
      simp [hj]

lemma copyLoop_take (bytes : List Nat) : ∀ (arr : List Nat) (i : Nat),
    arr.length = i + bytes.length →
    copyLoop arr i bytes = some (arr.take i ++ bytes) := by
  induction bytes with
  | nil =>
    intro arr i h
    simp at h
    simp [copyLoop, List.take_of_length_le (by omega : arr.length ≤ i)]
  | cons b rest ih =>
    intro arr i h
    have hi : i < arr.length := by simp at h ⊢; omega
    have hset : (arr.set i b).length = (i + 1) + rest.length := by
      simp at h ⊢; omega
    rw [copyLoop, if_pos hi, ih _ _ hset, take_set_succ arr i b hi]
    simp

/-- C1: for every 16-byte array, `BlobId::from_str` applied to the
lowercase-hex `Display` rendering of `BlobId::new` succeeds and returns an
equal `BlobId` (round-trip through the canonical text form). -/
theorem blob_id_display_from_str_roundtrip (l : List Nat)
    (hlen : l.length = 16) (hb : ∀ b ∈ l, b < 256) :
    BlobId.from_str (BlobId.new l).display = some (.ok (BlobId.new l)) := by
  have hdec : hexDecode ((BlobId.new l).display.data) = some l :=
    hexDecode_flatMap_encodeByte l hb
  have hcopy : copyLoop [0, 0, 0, 0, 0, 0, 0, 0, 0, 0, 0, 0, 0, 0, 0, 0] 0 l = some l := by
    have := copyLoop_take l (List.replicate 16 0) 0 (by simp [hlen])
    simpa using this
  simp only [BlobId.new] at hdec hcopy ⊢
  unfold BlobId.from_str
  rw [hdec]
  simp [hlen, hcopy]

/-- Witness for C1 at a concrete 16-byte array. -/
theorem blob_id_display_from_str_roundtrip_witness :
    BlobId.from_str (BlobId.new [0, 1, 2, 3, 4, 5, 6, 7, 8, 9, 10, 11, 12, 13, 14, 255]).display =
      some (.ok (BlobId.new [0, 1, 2, 3, 4, 5, 6, 7, 8, 9, 10, 11, 12, 13, 14, 255])) :=
  blob_id_display_from_str_roundtrip
    [0, 1, 2, 3, 4, 5, 6, 7, 8, 9, 10, 11, 12, 13, 14, 255] (by decide) (by decide)

/-- The derived `PartialEq`/`Eq` of `BlobId`: comparison of the raw
16-byte arrays, element by element. -/
def BlobId.beq (a b : BlobId) : Bool :=
  a.id == b.id

lemma hexDecode_isSome_iff (cs : List Char) :
    (hexDecode cs).isSome = true ↔
      (cs.length % 2 = 0 ∧ ∀ c ∈ cs, (hexCharValue c).isSome = true) := by
  induction cs using hexDecode.induct with
  | case1 => simp [hexDecode]
  | case2 c => simp [hexDecode]
  | case3 c1 c2 rest ih =>
    cases h1 : hexCharValue c1 with
    | none => simp [hexDecode, h1]
    | some hi =>
      cases h2 : hexCharValue c2 with
      | none => simp [hexDecode, h1, h2]
      | some lo =>
        cases h3 : hexDecode rest with
        | none =>
          simp [hexDecode, h1, h2, h3] at ih ⊢
          intro h
          exact ih (by omega)
        | some tail =>
          simp [hexDecode, h1, h2, h3] at ih ⊢
          exact ⟨by omega, ih.2⟩

lemma hexDecode_length (cs : List Char) : ∀ (bs : List Nat),
    hexDecode cs = some bs → cs.length = 2 * bs.length := by
  induction cs using hexDecode.induct with
  | case1 =>
    intro bs h
    simp [hexDecode] at h
    rcases h with rfl
    simp
  | case2 c =>
    intro bs h
    simp [hexDecode] at h
  | case3 c1 c2 rest ih =>
    intro bs h
    cases h1 : hexCharValue c1 with
    | none => simp [hexDecode, h1] at h
    | some hi =>
      cases h2 : hexCharValue c2 with
      | none => simp [hexDecode, h1, h2] at h
      | some lo =>
        cases h3 : hexDecode rest with
        | none => simp [hexDecode, h1, h2, h3] at h
        | some tail =>
          simp [hexDecode, h1, h2, h3] at h
          have hlen := ih tail h3
          rcases h with rfl
          simp [hlen]
          omega

lemma copyLoop_replicate16 (bytes : List Nat) (h : bytes.length = 16) :
    copyLoop [0, 0, 0, 0, 0, 0, 0, 0, 0, 0, 0, 0, 0, 0, 0, 0] 0 bytes = some bytes := by
  have := copyLoop_take bytes (List.replicate 16 0) 0 (by simp [h])
  simpa using this

lemma from_str_total (s : String) :
    (∃ b, BlobId.from_str s = some (.ok b)) ∨
      BlobId.from_str s = some (.error .BadBlobId) := by
  cases h : hexDecode s.data with
  | none =>
    right
    unfold BlobId.from_str
    rw [h]
  | some bytes =>
    by_cases hl : bytes.length = 16
    · left
      refine ⟨BlobId.mk bytes, ?_⟩
      unfold BlobId.from_str
      rw [h]
      simp [hl, copyLoop_replicate16 bytes hl]
    · right
      unfold BlobId.from_str
      rw [h]
      simp [hl]

lemma from_str_ok_iff (s : String) :
    (∃ b, BlobId.from_str s = some (.ok b)) ↔
      (s.data.length = 32 ∧ ∀ c ∈ s.data, (hexCharValue c).isSome = true) := by
  constructor
  · rintro ⟨b, hb⟩
    cases h : hexDecode s.data with
    | none =>
      unfold BlobId.from_str at hb
      rw [h] at hb
      simp at hb
    | some bytes =>
      have hlen2 := hexDecode_length s.data bytes h
      have hsome : (hexDecode s.data).isSome = true := by simp [h]
      have hall := (hexDecode_isSome_iff s.data).mp hsome
      unfold BlobId.from_str at hb
      rw [h] at hb
      by_cases hl : bytes.length = 16
      · exact ⟨by omega, hall.2⟩
      · simp [hl] at hb
  · rintro ⟨hlen, hall⟩
    have hsome : (hexDecode s.data).isSome = true :=
      (hexDecode_isSome_iff s.data).mpr ⟨by omega, hall⟩
    rcases Option.isSome_iff_exists.mp hsome with ⟨bytes, h⟩
    have hlen2 := hexDecode_length s.data bytes h
    have hl : bytes.length = 16 := by omega
    refine ⟨BlobId.mk bytes, ?_⟩
    unfold BlobId.from_str
    rw [h]
    simp [hl, copyLoop_replicate16 bytes hl]

/-- C2: `BlobId::from_str` succeeds exactly on the strings of 32
hexadecimal characters, both cases accepted (`hexCharValue` is defined on
`[0-9a-fA-F]`); on every other string (wrong length, a character outside
the hexadecimal alphabet, or surrounding whitespace, which is not a
hexadecimal character and is not trimmed) it fails with
`ApiError::BadBlobId`. -/
theorem from_str_ok_iff_32_hex_chars (s : String) :
    ((∃ b, BlobId.from_str s = some (.ok b)) ↔
      (s.data.length = 32 ∧ ∀ c ∈ s.data, (hexCharValue c).isSome = true))
    ∧ (¬(s.data.length = 32 ∧ ∀ c ∈ s.data, (hexCharValue c).isSome = true) →
      BlobId.from_str s = some (.error .BadBlobId)) := by
  refine ⟨from_str_ok_iff s, fun hn => ?_⟩
  rcases from_str_total s with hok | herr
  · exact absurd ((from_str_ok_iff s).mp hok) hn
  · exact herr

/-- C10: `BlobId::from_str` is total and never panics: on every input it
returns a value (the panic case of the array copy, modelled by `none`,
is unreachable), and that value is either `Ok` of a `BlobId` or
`Err(ApiError::BadBlobId)`, the only error it ever produces. -/
theorem from_str_total_never_panics (s : String) :
    BlobId.from_str s ≠ none ∧
      ((∃ b, BlobId.from_str s = some (.ok b)) ∨
        BlobId.from_str s = some (.error .BadBlobId)) := by
  rcases from_str_total s with ⟨b, hb⟩ | h
  · exact ⟨by simp [hb], .inl ⟨b, hb⟩⟩
  · exact ⟨by simp [h], .inr h⟩

/-- C8: equality of `BlobId` (the derived `PartialEq`/`Eq`) holds exactly
when the underlying 16-byte arrays are identical; consequently every
function of a `BlobId` — in particular any hash function — sends equal
values to identical results. -/
theorem blob_id_eq_over_raw_bytes (a b : BlobId) :
    (BlobId.beq a b = true ↔ a.id = b.id)
    ∧ ∀ hash : BlobId → Nat, BlobId.beq a b = true → hash a = hash b := by
  have hiff : BlobId.beq a b = true ↔ a.id = b.id := by
    simp [BlobId.beq]
  refine ⟨hiff, fun hash hbeq => ?_⟩
  have hid : a.id = b.id := hiff.mp hbeq
  cases a
  cases b
  simp_all

/-- The canonical reason phrase of an HTTP status code as the `hyper` crate
(version 0.11, the transport collaborator used by `connection.rs`) carries
it; codes outside the registry display as `<unknown status code>`. -/
def statusReason (code : Nat) : String :=
  match code with
  | 100 => "Continue"
  | 101 => "Switching Protocols"
  | 102 => "Processing"
  | 200 => "OK"
  | 201 => "Created"
  | 202 => "Accepted"
  | 203 => "Non-Authoritative Information"
  | 204 => "No Content"
  | 205 => "Reset Content"
  | 206 => "Partial Content"
  | 207 => "Multi-Status"
  | 208 => "Already Reported"
  | 226 => "IM Used"
  | 300 => "Multiple Choices"
  | 301 => "Moved Permanently"
  | 302 => "Found"
  | 303 => "See Other"
  | 304 => "Not Modified"
  | 305 => "Use Proxy"
  | 307 => "Temporary Redirect"
  | 308 => "Permanent Redirect"
  | 400 => "Bad Request"
  | 401 => "Unauthorized"
  | 402 => "Payment Required"
  | 403 => "Forbidden"
  | 404 => "Not Found"
  | 405 => "Method Not Allowed"
  | 406 => "Not Acceptable"
  | 407 => "Proxy Authentication Required"
  | 408 => "Request Timeout"
  | 409 => "Conflict"
  | 410 => "Gone"
  | 411 => "Length Required"
  | 412 => "Precondition Failed"
  | 413 => "Payload Too Large"
  | 414 => "URI Too Long"
  | 415 => "Unsupported Media Type"
  | 416 => "Range Not Satisfiable"
  | 417 => "Expectation Failed"
  | 418 => "I\x27m a teapot"
  | 421 => "Misdirected Request"
  | 422 => "Unprocessable Entity"
  | 423 => "Locked"
  | 424 => "Failed Dependency"
  | 426 => "Upgrade Required"
  | 428 => "Precondition Required"
  | 429 => "Too Many Requests"
  | 431 => "Request Header Fields Too Large"
  | 451 => "Unavailable For Legal Reasons"
  | 500 => "Internal Server Error"
  | 501 => "Not Implemented"
  | 502 => "Bad Gateway"
  | 503 => "Service Unavailable"
  | 504 => "Gateway Timeout"
  | 505 => "HTTP Version Not Supported"
  | 506 => "Variant Also Negotiates"
  | 507 => "Insufficient Storage"
  | 508 => "Loop Detected"
  | 510 => "Not Extended"
  | 511 => "Network Authentication Required"
  | _ => "<unknown status code>"

/-- The `fmt::Display` of a `StatusCode`: the decimal code, a space, and
the canonical reason phrase. This is what `format!` interpolates in
`map_response_code`. -/
def statusDisplay (code : Nat) : String :=
  toString code ++ " " ++ statusReason code

/-- The text `s` mentions the status code `n`: the decimal rendering of
`n` occurs contiguously in `s`. -/
def mentionsCode (n : Nat) (s : String) : Prop :=
  ∃ pre post, s.data = pre ++ (toString n).data ++ post

/-- `map_response_code` of `connection.rs`: the `match` over the status
code. The status is modelled as the numeric code (the `StatusCode` enum of
the transport crate covers every numeric value via its unregistered
variant, so the Rust `match` is total). -/
def map_response_code (status : Nat) (bad_request_meaning : Option ApiError) :
    Except ApiError Unit :=
  match status with
  | 200 => .ok ()
  | 400 =>
    match bad_request_meaning with
    | some error => .error error
    | none => .error (.Other ("Bad response status code: " ++ statusDisplay 400))
  | 401 => .error .BadCredentials
  | 402 => .error .NoCredits
  | 404 => .error .IdNotFound
  | 413 => .error .MessageTooLong
  | 500 => .error .ServerError
  | e => .error (.Other ("Bad response status code: " ++ statusDisplay e))

lemma mentionsCode_statusMessage (n : Nat) :
    mentionsCode n ("Bad response status code: " ++ statusDisplay n) := by
  refine ⟨"Bad response status code: ".data, (" " ++ statusReason n).data, ?_⟩
  simp [statusDisplay, String.data_append, List.append_assoc]

lemma map_response_code_ok_iff (n : Nat) (m : Option ApiError) :
    map_response_code n m = .ok () ↔ n = 200 := by
  constructor
  · intro h
    unfold map_response_code at h
    split at h
    · rfl
    · cases m <;> simp_all
    all_goals simp_all
  · rintro rfl
    rfl

lemma map_response_code_fallback (n : Nat) (m : Option ApiError)
    (hn : n ∉ ([200, 400, 401, 402, 404, 413, 500] : List Nat)) :
    map_response_code n m =
      .error (.Other ("Bad response status code: " ++ statusDisplay n)) := by
  simp at hn
  unfold map_response_code
  split
  all_goals simp_all

/-- C3: `map_response_code` is a total function of the status code and the
optional 400-meaning. It returns success exactly for status 200; maps 401,
402, 404, 413 and 500 to `BadCredentials`, `NoCredits`, `IdNotFound`,
`MessageTooLong` and `ServerError` regardless of the 400-meaning; for 400
it returns the supplied meaning when present and otherwise an `Other`
error whose text mentions 400; and for every other code an `Other` error
whose text mentions that code. -/
theorem map_response_code_spec (m : Option ApiError) (e : ApiError) (n : Nat) :
    (map_response_code n m = .ok () ↔ n = 200)
    ∧ map_response_code 401 m = .error .BadCredentials
    ∧ map_response_code 402 m = .error .NoCredits
    ∧ map_response_code 404 m = .error .IdNotFound
    ∧ map_response_code 413 m = .error .MessageTooLong
    ∧ map_response_code 500 m = .error .ServerError
    ∧ map_response_code 400 (some e) = .error e
    ∧ (∃ msg, map_response_code 400 none = .error (.Other msg) ∧ mentionsCode 400 msg)
    ∧ (n ∉ ([200, 400, 401, 402, 404, 413, 500] : List Nat) →
        ∃ msg, map_response_code n m = .error (.Other msg) ∧ mentionsCode n msg) :=
  ⟨map_response_code_ok_iff n m, rfl, rfl, rfl, rfl, rfl, rfl,
    ⟨_, rfl, mentionsCode_statusMessage 400⟩,
    fun hn => ⟨_, map_response_code_fallback n m hn, mentionsCode_statusMessage n⟩⟩

/-- The `Recipient` enum of `connection.rs`: identity, phone number or
e-mail address (the copy-on-write string collapses to a plain string). -/
inductive Recipient where
  | Id (id : String)
  | Phone (phone : String)
  | Email (email : String)

/-- A `HashMap<_, String>` viewed extensionally: the value held at each
key. -/
def emptyParams : String → Option String :=
  fun _ => none

/-- `HashMap::insert`: the new binding overwrites any binding the key
already had; every other key is untouched. -/
def insertParam (k v : String) (m : String → Option String) :
    String → Option String :=
  fun x => if x = k then some v else m x

/-- The POST parameter map built by `send_simple` (lines 112-120 of
`connection.rs`): `from`, `text`, `secret` inserted in order, then exactly
one of `to`, `phone`, `email` according to the `Recipient` variant. -/
def send_simple_params (sender : String) (recipient : Recipient)
    (secret text : String) : String → Option String :=
  let params := insertParam "secret" secret
    (insertParam "text" text (insertParam "from" sender emptyParams))
  match recipient with
  | .Id id => insertParam "to" id params
  | .Phone phone => insertParam "phone" phone params
  | .Email email => insertParam "email" email params

/-- The local (pre-network) part of `send_simple`: the byte-length check
on the UTF-8 text (`str::len` counts bytes), then the parameter map that
would be submitted. Everything after this point in the Rust function is
the network request and the pass-through of the response body. -/
def send_simple_local (sender : String) (recipient : Recipient)
    (secret text : String) : Except ApiError (String → Option String) :=
  if text.utf8ByteSize > 3500 then .error .MessageTooLong
  else .ok (send_simple_params sender recipient secret text)

/-- The POST parameter map built by `send_e2e` (lines 147-155 of
`connection.rs`): the caller-supplied `additional_params` (or an empty
map), then `from`, `to`, `secret`, the lowercase-hex `nonce` and the
lowercase-hex `box` inserted in order, overwriting. -/
def send_e2e_params (sender recipient secret : String) (nonce ciphertext : List Nat)
    (additional_params : Option (String → Option String)) :
    String → Option String :=
  let params := match additional_params with
    | some p => p
    | none => emptyParams
  insertParam "box" (hexEncode ciphertext)
    (insertParam "nonce" (hexEncode nonce)
      (insertParam "secret" secret
        (insertParam "to" recipient
          (insertParam "from" sender params))))

/-- A lowercase hexadecimal character: a decimal digit or `a`-`f`. -/
def isLowerHexChar (c : Char) : Bool :=
  (48 ≤ c.toNat ∧ c.toNat ≤ 57) ∨ (97 ≤ c.toNat ∧ c.toNat ≤ 102)

lemma isLowerHexChar_hexDigitChar : ∀ n < 16, isLowerHexChar (hexDigitChar n) = true := by
  decide

lemma hexEncode_lower (bytes : List Nat) (hb : ∀ b ∈ bytes, b < 256) :
    ∀ c ∈ (hexEncode bytes).data, isLowerHexChar c = true := by
  intro c hc
  simp only [hexEncode] at hc
  rcases List.mem_flatMap.mp hc with ⟨b, hbmem, hcmem⟩
  have hb256 := hb b hbmem
  simp only [encodeByte, List.mem_cons, List.not_mem_nil, or_false] at hcmem
  rcases hcmem with rfl | rfl
  · exact isLowerHexChar_hexDigitChar _ (by omega)
  · exact isLowerHexChar_hexDigitChar _ (Nat.mod_lt _ (by omega))

/-- C4: `send_simple` fails with `MessageTooLong` exactly when the UTF-8
byte length of the text exceeds 3500 — a byte-count check, not a character
count — and this happens locally, before any network request (the model
`send_simple_local` stops at the point where the Rust function first
touches the network); any text of at most 3500 bytes passes the check and
yields the parameter map instead. -/
theorem send_simple_length_check (sender : String) (recipient : Recipient)
    (secret text : String) :
    (send_simple_local sender recipient secret text = .error .MessageTooLong ↔
      text.utf8ByteSize > 3500)
    ∧ (text.utf8ByteSize ≤ 3500 →
      send_simple_local sender recipient secret text =
        .ok (send_simple_params sender recipient secret text)) := by
  constructor
  · unfold send_simple_local
    split
    · simp_all
    · simp_all
  · intro h
    unfold send_simple_local
    rw [if_neg (by omega)]

/-- C6: the parameter map submitted by `send_e2e` binds `from`, `to` and
`secret` to the corresponding arguments and `nonce` and `box` to the
lowercase-hexadecimal encodings of the nonce and the ciphertext, as two
separate fields under two distinct keys; the `send_simple` map always
binds `from` and `secret` and exactly one of `to`, `phone`, `email`
according to the `Recipient` variant. -/
theorem send_params_wire_format (sender recipient secret : String)
    (nonce ciphertext : List Nat) (ap : Option (String → Option String))
    (rc : Recipient) (text : String) :
    (send_e2e_params sender recipient secret nonce ciphertext ap "from" = some sender
      ∧ send_e2e_params sender recipient secret nonce ciphertext ap "to" = some recipient
      ∧ send_e2e_params sender recipient secret nonce ciphertext ap "secret" = some secret
      ∧ send_e2e_params sender recipient secret nonce ciphertext ap "nonce" =
          some (hexEncode nonce)
      ∧ send_e2e_params sender recipient secret nonce ciphertext ap "box" =
          some (hexEncode ciphertext))
    ∧ ((∀ b ∈ nonce, b < 256) →
        ∀ c ∈ (hexEncode nonce).data, isLowerHexChar c = true)
    ∧ ((∀ b ∈ ciphertext, b < 256) →
        ∀ c ∈ (hexEncode ciphertext).data, isLowerHexChar c = true)
    ∧ (send_simple_params sender rc secret text "from" = some sender
      ∧ send_simple_params sender rc secret text "secret" = some secret
      ∧ (∀ i, rc = .Id i →
          send_simple_params sender rc secret text "to" = some i
          ∧ send_simple_params sender rc secret text "phone" = none
          ∧ send_simple_params sender rc secret text "email" = none)
      ∧ (∀ p, rc = .Phone p →
          send_simple_params sender rc secret text "phone" = some p
          ∧ send_simple_params sender rc secret text "to" = none
          ∧ send_simple_params sender rc secret text "email" = none)
      ∧ (∀ e, rc = .Email e →
          send_simple_params sender rc secret text "email" = some e
          ∧ send_simple_params sender rc secret text "to" = none
          ∧ send_simple_params sender rc secret text "phone" = none)) := by
  refine ⟨⟨rfl, rfl, rfl, rfl, rfl⟩,
    hexEncode_lower nonce, hexEncode_lower ciphertext, ?_⟩
  cases rc with
  | Id i =>
    refine ⟨rfl, rfl, ?_, ?_, ?_⟩ <;> intro x hx <;> cases hx
    exact ⟨rfl, rfl, rfl⟩
  | Phone p =>
    refine ⟨rfl, rfl, ?_, ?_, ?_⟩ <;> intro x hx <;> cases hx
    exact ⟨rfl, rfl, rfl⟩
  | Email e =>
    refine ⟨rfl, rfl, ?_, ?_, ?_⟩ <;> intro x hx <;> cases hx
    exact ⟨rfl, rfl, rfl⟩

/-- C9: whatever `additional_params` map the caller supplies to `send_e2e`,
the five protocol keys are overwritten with the values derived from the
arguments, and every other entry of `additional_params` is preserved
unchanged in the submitted map. -/
theorem send_e2e_additional_params_override (sender recipient secret : String)
    (nonce ciphertext : List Nat) (ap : String → Option String) (k : String) :
    (send_e2e_params sender recipient secret nonce ciphertext (some ap) "from" = some sender
      ∧ send_e2e_params sender recipient secret nonce ciphertext (some ap) "to" = some recipient
      ∧ send_e2e_params sender recipient secret nonce ciphertext (some ap) "secret" = some secret
      ∧ send_e2e_params sender recipient secret nonce ciphertext (some ap) "nonce" =
          some (hexEncode nonce)
      ∧ send_e2e_params sender recipient secret nonce ciphertext (some ap) "box" =
          some (hexEncode ciphertext))
    ∧ (k ≠ "from" → k ≠ "to" → k ≠ "secret" → k ≠ "nonce" → k ≠ "box" →
        send_e2e_params sender recipient secret nonce ciphertext (some ap) k = ap k) := by
  refine ⟨⟨rfl, rfl, rfl, rfl, rfl⟩, fun h1 h2 h3 h4 h5 => ?_⟩
  simp [send_e2e_params, insertParam, h1, h2, h3, h4, h5]

/-- A whitespace character as `str::trim` removes it (the instances that
can occur in the ASCII response bodies at hand: space, tab, newline,
carriage return). -/
def isTrimWs (c : Char) : Bool :=
  c = ' ' ∨ c = '\t' ∨ c = '\n' ∨ c = '\r'

/-- `str::trim`: remove leading and trailing whitespace, nothing else. -/
def rustTrim (s : String) : String :=
  String.mk (((s.data.dropWhile isTrimWs).reverse.dropWhile isTrimWs).reverse)

/-- The 200-response tail of `blob_upload` (lines 202-206 of
`connection.rs`): trim the response body, then parse it as a `BlobId`. -/
def blob_upload_parse (body : String) : Option (Except ApiError BlobId) :=
  BlobId.from_str (rustTrim body)

lemma rustTrim_infix (body : String) :
    ∃ pre post, body.data = pre ++ (rustTrim body).data
        ++ post
      ∧ (∀ c ∈ pre, isTrimWs c = true) ∧ (∀ c ∈ post, isTrimWs c = true) := by
  refine ⟨(body.data.takeWhile isTrimWs),
    ((body.data.dropWhile isTrimWs).reverse.takeWhile isTrimWs).reverse, ?_, ?_, ?_⟩
  · conv_lhs => rw [← List.takeWhile_append_dropWhile (p := isTrimWs) (l := body.data)]
    rw [List.append_assoc]
    congr 1
    show List.dropWhile isTrimWs body.data =
      ((body.data.dropWhile isTrimWs).reverse.dropWhile isTrimWs).reverse
        ++ ((body.data.dropWhile isTrimWs).reverse.takeWhile isTrimWs).reverse
    rw [← List.reverse_append, List.takeWhile_append_dropWhile, List.reverse_reverse]
  · intro c hc
    exact List.mem_takeWhile_imp hc
  · intro c hc
    exact List.mem_takeWhile_imp (List.mem_reverse.mp hc)

/-- C5 counterexample: on a 200 response whose body is 32 hex characters
plus one extra non-whitespace trailing character, `blob_upload` returns
the malformed-identifier error `ApiError::BadBlobId`, which is a distinct
value from `ApiError::BadBlob` — the error is not surfaced as `BadBlob`. -/
theorem blob_upload_parse_error_is_not_bad_blob :
    blob_upload_parse "0123456789abcdef0123456789abcdefx" =
        some (.error .BadBlobId)
      ∧ ApiError.BadBlobId ≠ ApiError.BadBlob := by
  decide

/-- C5 (amended): on a 200 response `blob_upload` trims no more than
surrounding whitespace/newline from the body and then applies `BlobId`
parsing; a body that trims to exactly 32 hex characters yields the
corresponding blob ID, and a body with an extra non-whitespace trailing
character or an invalid hex character yields the malformed-identifier
error `ApiError::BadBlobId` (`BadBlob` is only the meaning `blob_upload`
assigns to a 400 status). -/
theorem blob_upload_parse_spec (body : String) :
    blob_upload_parse body = BlobId.from_str (rustTrim body)
    ∧ (∃ pre post, body.data = pre ++ (rustTrim body).data ++ post
        ∧ (∀ c ∈ pre, isTrimWs c = true) ∧ (∀ c ∈ post, isTrimWs c = true))
    ∧ blob_upload_parse "0123456789abcdef0123456789abcdef" =
        some (.ok (BlobId.new [0x01, 0x23, 0x45, 0x67, 0x89, 0xab, 0xcd, 0xef,
                               0x01, 0x23, 0x45, 0x67, 0x89, 0xab, 0xcd, 0xef]))
    ∧ blob_upload_parse "\n 0123456789abcdef0123456789abcdef \n" =
        some (.ok (BlobId.new [0x01, 0x23, 0x45, 0x67, 0x89, 0xab, 0xcd, 0xef,
                               0x01, 0x23, 0x45, 0x67, 0x89, 0xab, 0xcd, 0xef]))
    ∧ blob_upload_parse "0123456789abcdef0123456789abcdefx" =
        some (.error .BadBlobId)
    ∧ blob_upload_parse "0123456789abcdeg0123456789abcdef" =
        some (.error .BadBlobId) :=
  ⟨rfl, rustTrim_infix body, by decide, by decide, by decide, by decide⟩

/-- The fixed multipart boundary token of `blob_upload`. -/
def boundary : String :=
  "3ma-d84f64f5-a138-4b0a-9e25-339257990c81-3ma"

/-- The UTF-8 bytes of an ASCII string; every string constant occurring in
the `blob_upload` request body is ASCII, one byte per character. -/
def asciiBytes (s : String) : List Nat :=
  s.data.map Char.toNat

/-- The multipart/form-data request body of `blob_upload` (lines 180-189
of `connection.rs`), built by the same sequence of `extend_from_slice`
pushes into an initially empty vector. -/
def blob_upload_body (data : EncryptedMessage) : List Nat :=
  let rb : List Nat := []
  let rb := rb ++ asciiBytes "--"
  let rb := rb ++ asciiBytes boundary
  let rb := rb ++ asciiBytes "\r\n"
  let rb := rb ++ asciiBytes "Content-Disposition: form-data; name=\"blob\"\r\n"
  let rb := rb ++ asciiBytes "Content-Type: application/octet-stream\r\n\r\n"
  let rb := rb ++ data.ciphertext
  let rb := rb ++ asciiBytes "\r\n--"
  let rb := rb ++ asciiBytes boundary
  let rb := rb ++ asciiBytes "--\r\n"
  rb

/-- A mime type as the transport crate represents it: top level, sub
level, and attribute-value parameters. -/
structure Mime where
  top : String
  sub : String
  params : List (String × String)

/-- The content type attached to the `blob_upload` request (lines 192-194
of `connection.rs`): `multipart/form-data` whose `boundary` attribute is
the very boundary token used inside the body. -/
def blob_upload_mime : Mime :=
  ⟨"multipart", "form-data", [("boundary", boundary)]⟩

/-- C7: the `blob_upload` request body is a single-part multipart body:
dashes and the fixed boundary, CRLF, the Content-Disposition part header,
CRLF, the Content-Type (application/octet-stream) part header, CRLF, a
blank line, the raw ciphertext bytes unmodified, and the closing
delimiter built from the same boundary; the mime type of the request
names that same boundary. -/
theorem blob_upload_body_layout (data : EncryptedMessage) :
    blob_upload_body data =
      asciiBytes ("--" ++ boundary) ++ asciiBytes "\r\n"
        ++ asciiBytes "Content-Disposition: form-data; name=\"blob\"" ++ asciiBytes "\r\n"
        ++ asciiBytes "Content-Type: application/octet-stream" ++ asciiBytes "\r\n"
        ++ asciiBytes "\r\n"
        ++ data.ciphertext
        ++ asciiBytes ("\r\n" ++ "--" ++ boundary ++ "--" ++ "\r\n")
    ∧ blob_upload_mime.params = [("boundary", boundary)] := by
  refine ⟨?_, rfl⟩
  simp only [blob_upload_body, List.nil_append, List.append_assoc]
  rfl

example : ("à" : String).utf8ByteSize = 2 ∧ ("ab" : String).utf8ByteSize = 2 := by
  decide
